import Mathlib

set_option maxRecDepth 4000

/-!
Verification development for the portfolio-website dev server
(`dev-server/server.js`): a shallow embedding of its HTML-generation,
document-patching and safe-file-materializer core, together with theorems
settling the specified properties.

Strings are modelled as lists of characters (`Str`), JavaScript string
operations as executable functions on them.  The filesystem is modelled as
an association list from resolved paths to file contents; `fs.writeFile`
prepends (shadowing any older binding), `fs.unlink` removes.  Machine
concerns (encoding, async I/O ordering) are outside the model: every
operation of the core is sequential in the source.
-/

/-- JavaScript strings, modelled as lists of characters. -/
abbrev Str := List Char

/-- Embed a Lean string literal as a `Str`. -/
def str (s : String) : Str := s.data

/-- ASCII part of JavaScript's `\s` character class (sufficient for the
inputs of this system; the Unicode spaces never occur in its data). -/
def isSpaceC (c : Char) : Bool :=
  c = ' ' || c = '\t' || c = '\n' || c = '\r' || c = '\x0b' || c = '\x0c'

/-- Embedding of `String.prototype.trim()`. -/
def jsTrim (s : Str) : Str :=
  ((s.dropWhile isSpaceC).reverse.dropWhile isSpaceC).reverse

/-- Concatenate a list of strings (JavaScript `join('')`). -/
def joinStr (l : List Str) : Str := l.flatten

/-- JavaScript `Array.prototype.join(sep)`. -/
def joinSep (sep : Str) (l : List Str) : Str := List.intercalate sep l

/-! Section: indexOf machinery (JavaScript `String.prototype.indexOf`) -/

/-- Does `pat` occur in `s` starting at offset `i`?  (Boolean form.) -/
def occursAtB (pat s : Str) (i : Nat) : Bool := pat.isPrefixOf (s.drop i)

/-- First offset (from the head of `s`) at which `pat` occurs. -/
def firstIdxA (pat : Str) : Str → Option Nat
  | [] => if pat.isPrefixOf ([] : Str) then some 0 else none
  | c :: rest =>
    if pat.isPrefixOf (c :: rest) then some 0
    else (firstIdxA pat rest).map (· + 1)

/-- Embedding of `s.indexOf(pat, start)` (result `none` for JavaScript's `-1`). -/
def firstIdxFrom (s pat : Str) (start : Nat) : Option Nat :=
  (firstIdxA pat (s.drop start)).map (· + start)

/-- Embedding of `s.indexOf(pat)`. -/
def firstIdx (s pat : Str) : Option Nat := firstIdxFrom s pat 0

/-- Embedding of `s.includes(pat)` (used by the listing patcher's description wrapping). -/
def containsSubstr (s pat : Str) : Bool := (firstIdx s pat).isSome

theorem isPrefixOf_ne_nil {pat l : Str} (hne : pat ≠ []) :
    pat.isPrefixOf l = true → l ≠ [] := by
  intro h
  cases pat with
  | nil => exact absurd rfl hne
  | cons c cs =>
    cases l with
    | nil => simp [List.isPrefixOf] at h
    | cons d ds => exact List.cons_ne_nil d ds

theorem firstIdxA_sound {pat s : Str} {j : Nat} :
    firstIdxA pat s = some j → pat.isPrefixOf (s.drop j) = true := by
  induction s generalizing j with
  | nil =>
    intro h
    by_cases hp : pat.isPrefixOf ([] : Str)
    · simp only [firstIdxA, hp, if_pos, Option.some.injEq] at h
      subst h; simpa using hp
    · simp [firstIdxA, hp] at h
  | cons c rest ih =>
    intro h
    by_cases hp : pat.isPrefixOf (c :: rest)
    · simp only [firstIdxA, hp, if_pos, Option.some.injEq] at h
      subst h; simpa using hp
    · simp only [firstIdxA, hp, Bool.false_eq_true, if_false,
        Option.map_eq_some'] at h
      obtain ⟨a, ha, hj⟩ := h
      subst hj
      simpa using ih ha

theorem firstIdxFrom_sound {s pat : Str} {start n : Nat} :
    firstIdxFrom s pat start = some n →
    pat.isPrefixOf (s.drop n) = true ∧ start ≤ n := by
  intro h
  simp only [firstIdxFrom, Option.map_eq_some'] at h
  obtain ⟨a, ha, hn⟩ := h
  subst hn
  have := firstIdxA_sound ha
  rw [List.drop_drop, Nat.add_comm] at this
  exact ⟨this, Nat.le_add_left start a⟩

theorem firstIdx_sound {s pat : Str} {n : Nat} :
    firstIdx s pat = some n → pat.isPrefixOf (s.drop n) = true :=
  fun h => (firstIdxFrom_sound h).1

/-- A found occurrence of a nonempty pattern lies strictly inside the string. -/
theorem firstIdxFrom_lt_length {s pat : Str} {start n : Nat} (hne : pat ≠ [])
    (h : firstIdxFrom s pat start = some n) : n < s.length := by
  have hp := (firstIdxFrom_sound h).1
  have hdrop := isPrefixOf_ne_nil hne hp
  by_contra hlen
  push_neg at hlen
  exact hdrop (List.drop_eq_nil_of_le hlen)

/-! Section: Path model (`node:path`, POSIX) -/

/-- A resolved filesystem path as a list of segments (anchored at `/`). -/
abbrev FsPath := List Str

/-- One step of POSIX path normalization: `.` and empty segments vanish,
`..` pops (a no-op at the root, as in `path.resolve`), others push. -/
def applySeg (stack : FsPath) (seg : Str) : FsPath :=
  if seg = [] || seg = str "." then stack
  else if seg = str ".." then stack.dropLast
  else stack ++ [seg]

/-- Embedding of `path.join(root, rel)` for an absolute `root` given as segments. -/
def joinPath (root : FsPath) (rel : Str) : FsPath :=
  (rel.splitOn '/').foldl applySeg root

/-- Is a raw path string absolute (leading `/`)? -/
def isAbsoluteStr (s : Str) : Bool := s.head? = some '/'

/-- Embedding of `path.resolve(root, rel)` for an absolute `root`. -/
def resolvePath (root : FsPath) (rel : Str) : FsPath :=
  if isAbsoluteStr rel then (rel.splitOn '/').foldl applySeg []
  else joinPath root rel

/-- Length of the common prefix of two segment lists. -/
def commonPrefixLen : FsPath → FsPath → Nat
  | a :: as, b :: bs => if a = b then 1 + commonPrefixLen as bs else 0
  | _, _ => 0

/-- Embedding of `path.relative(f, t)` on normalized absolute paths, as a raw string. -/
def relativePath (f t : FsPath) : Str :=
  let k := commonPrefixLen f t
  joinSep (str "/") ((f.drop k).map (fun _ => str "..") ++ t.drop k)

/-- The containment property the specification asserts for writes:
the resolved location lies inside the site root. -/
def insideRoot (root p : FsPath) : Bool := root.isPrefixOf p

/-! Section: Filesystem model -/

/-- Filesystem: association list from resolved paths to contents.
Lookup takes the first binding, so writing prepends (overwriting by
shadowing) and unlink removes all bindings of the path. -/
abbrev FS := List (FsPath × Str)

def fsExists (fs : FS) (p : FsPath) : Bool := fs.any (fun e => e.1 = p)

def fsRead (fs : FS) (p : FsPath) : Option Str :=
  (fs.find? (fun e => e.1 = p)).map (·.2)

/-- Embedding of `fs.writeFile` (create or overwrite). -/
def fsWrite (fs : FS) (p : FsPath) (c : Str) : FS := (p, c) :: fs

/-- Embedding of `fs.unlink`. -/
def fsErase (fs : FS) (p : FsPath) : FS := fs.filter (fun e => ¬ e.1 = p)

theorem fsRead_write_ne (fs : FS) {p q : FsPath} (c : Str) (h : p ≠ q) :
    fsRead (fsWrite fs q c) p = fsRead fs p := by
  simp [fsRead, fsWrite, List.find?, decide_eq_true_eq, h.symm]

theorem fsExists_write (fs : FS) (p q : FsPath) (c : Str) :
    fsExists fs p = true → fsExists (fsWrite fs q c) p = true := by
  intro h
  simp only [fsExists, fsWrite, List.any_cons, Bool.or_eq_true]
  exact Or.inr (by simpa [fsExists] using h)

/-! Section: Safe file materializer: normalization, naming check, deletion
(`normalizeRelativePath`, `isGeneratedProjectDetailHtml`,
`deleteGeneratedProjectDetailHtmlFile`, server.js lines 107-145). -/

/-- Embedding of `String(relativePath).trim().replace(/^\.\//, '')` (one leading `./`). -/
def normalizeRelativePath (relativePath : Str) : Str :=
  let t := jsTrim relativePath
  if (str "./").isPrefixOf t then t.drop 2 else t

/-- Embedding of `path.basename`: last nonempty `/`-separated segment. -/
def pathBasename (p : Str) : Str :=
  (((p.splitOn '/').filter (fun seg => ¬ seg = [])).getLast?).getD []

/-- Embedding of `/^project-\d+\.html$/i` applied to a whole string. -/
def matchesGeneratedName (s : Str) : Bool :=
  let l := s.map Char.toLower
  (str "project-").isPrefixOf l &&
    (let rest := l.drop 8
     let ds := rest.takeWhile Char.isDigit
     decide (ds ≠ []) && decide (rest.drop ds.length = str ".html"))

/-- Embedding of `isGeneratedProjectDetailHtml` (server.js lines 112-116). -/
def isGeneratedProjectDetailHtml (relativePath : Str) : Bool :=
  let normalized := normalizeRelativePath relativePath
  if normalized = [] then false
  else matchesGeneratedName (pathBasename normalized)

structure DeleteResult where
  deleted : Bool
  reason : Option Str
deriving DecidableEq, Repr

/-- Embedding of `deleteGeneratedProjectDetailHtmlFile` (server.js lines 118-145),
returning the result object together with the filesystem after the call. -/
def deleteGeneratedProjectDetailHtmlFile (root : FsPath) (fs : FS)
    (detailPagePath : Str) : DeleteResult × FS :=
  let relative := normalizeRelativePath detailPagePath
  if relative = [] then (⟨false, some (str "missing")⟩, fs)
  else if ¬ isGeneratedProjectDetailHtml relative then
    (⟨false, some (str "not-generated")⟩, fs)
  else
    let resolved := resolvePath root relative
    let relCheck := relativePath root resolved
    if (str "..").isPrefixOf relCheck || isAbsoluteStr relCheck then
      (⟨false, some (str "unsafe-path")⟩, fs)
    else if fsExists fs resolved then (⟨true, none⟩, fsErase fs resolved)
    else (⟨false, some (str "not-found")⟩, fs)

/-! Section: List-item sanitization (`sanitizeListItem`, server.js lines 149-160) -/

/-- Tag name test for the regex alternative `(ul|ol)`, case-insensitive. -/
def isTagNameUlOl (a b : Char) : Bool :=
  (a.toLower = 'u' || a.toLower = 'o') && b.toLower = 'l'

/-- Length of a match of `/<\/?(ul|ol)[^>]*>/i` at the head of `s`. -/
def matchUlOlLen : Str -> Option Nat
  | '<' :: rest =>
    let p : Nat × Str := match rest with
      | '/' :: r => (1, r)
      | _ => (0, rest)
    match p.2 with
    | a :: b :: r2 =>
      if isTagNameUlOl a b then
        let inner := r2.takeWhile (fun c => !(c = '>'))
        if r2.drop inner.length = [] then none
        else some (1 + p.1 + 2 + inner.length + 1)
      else none
    | _ => none
  | _ => none

/-- Global replace of `/<\/?(ul|ol)[^>]*>/gi` by the empty string:
leftmost scan, continuing after each match.  Fuel is the string length
(every step consumes at least one character). -/
def stripUlOlAux : Nat -> Str -> Str
  | 0, s => s
  | _ + 1, [] => []
  | fuel + 1, c :: rest =>
    match matchUlOlLen (c :: rest) with
    | some n => stripUlOlAux fuel ((c :: rest).drop n)
    | none => c :: stripUlOlAux fuel rest

def stripUlOlTags (s : Str) : Str := stripUlOlAux s.length s

/-- Length of a match of `/^\s*<li[^>]*>\s*/i` at the head of `s`. -/
def matchLeadingLiLen (s : Str) : Option Nat :=
  let w := s.takeWhile isSpaceC
  match s.drop w.length with
  | '<' :: a :: b :: r2 =>
    if a.toLower = 'l' && b.toLower = 'i' then
      let inner := r2.takeWhile (fun c => !(c = '>'))
      if r2.drop inner.length = [] then none
      else
        let afterTag := r2.drop (inner.length + 1)
        some (w.length + 3 + inner.length + 1 + (afterTag.takeWhile isSpaceC).length)
    else none
  | _ => none

/-- Embedding of `text.replace(/^\s*<li[^>]*>\s*/i, '')`. -/
def stripLeadingLi (s : Str) : Str :=
  match matchLeadingLiLen s with
  | some n => s.drop n
  | none => s

/-- Embedding of `text.replace(/\s*<\/?li>\s*$/i, '')`: anchored at the end, so strip a
trailing `</li>` or `<li>` (any case) together with surrounding whitespace. -/
def stripTrailingLi (s : Str) : Str :=
  let r := s.reverse
  let r1 := r.dropWhile isSpaceC
  if (r1.take 5).map Char.toLower = str ">il/<" then
    ((r1.drop 5).dropWhile isSpaceC).reverse
  else if (r1.take 4).map Char.toLower = str ">il<" then
    ((r1.drop 4).dropWhile isSpaceC).reverse
  else s

def isBulletChar (c : Char) : Bool := c = '-' || c = '*' || c = '\u2022'

/-- Embedding of `text.replace(/^\s*(?:[-*\u2022]+\s+|\d+[.)]\s+)/, '')`: strip one leading
plain-text bullet marker (bullet characters or `N.`/`N)`) if present. -/
def stripBulletMarker (s : Str) : Str :=
  let r := s.dropWhile isSpaceC
  let bullets := r.takeWhile isBulletChar
  if !(bullets = []) then
    let r2 := r.drop bullets.length
    let sp := r2.takeWhile isSpaceC
    if !(sp = []) then r2.drop sp.length else s
  else
    let ds := r.takeWhile Char.isDigit
    if !(ds = []) then
      match r.drop ds.length with
      | c :: r3 =>
        if c = '.' || c = ')' then
          let sp := r3.takeWhile isSpaceC
          if !(sp = []) then r3.drop sp.length else s
        else s
      | [] => s
    else s

/-- Embedding of `sanitizeListItem` (server.js lines 149-160). -/
def sanitizeListItem (value : Str) : Str :=
  let t0 := jsTrim value
  let t1 := jsTrim (stripUlOlTags t0)
  let t2 := jsTrim (stripTrailingLi (stripLeadingLi t1))
  jsTrim (stripBulletMarker t2)

/-! Section: Paragraph splitting (`renderTextAsParagraphs`, lines 164-176) -/

/-- Length of a match of `/\n\s*\n+/` at the head of `s`.  With
backtracking semantics this is: an initial newline, then the whitespace
run up to and including its last newline (failing when the run after the
initial newline holds no further newline). -/
def blankMatchLen (s : Str) : Option Nat :=
  match s with
  | '\n' :: r =>
    let run := r.takeWhile isSpaceC
    if run.any (fun c => c = '\n') then
      some (1 + (run.length - (run.reverse.takeWhile (fun c => !(c = '\n'))).length))
    else none
  | _ => none

/-- Embedding of `text.split(/\n\s*\n+/)`: fuelled leftmost scan. -/
def splitBlankAux : Nat -> Str -> Str -> List Str
  | 0, acc, s => [acc.reverse ++ s]
  | _ + 1, acc, [] => [acc.reverse]
  | fuel + 1, acc, c :: rest =>
    match blankMatchLen (c :: rest) with
    | some n => acc.reverse :: splitBlankAux fuel [] ((c :: rest).drop n)
    | none => splitBlankAux fuel (c :: acc) rest

def splitOnBlankLines (s : Str) : List Str := splitBlankAux s.length [] s

/-- Embedding of `renderTextAsParagraphs` (server.js lines 164-176); the `className`
argument defaults to `projects__row-content-desc2` at every call site. -/
def renderTextAsParagraphs (value : Str)
    (className : Str := str "projects__row-content-desc2") : Str :=
  let text := jsTrim value
  if text = [] then []
  else
    let parts := ((splitOnBlankLines text).map jsTrim).filter (fun p => !(p = []))
    joinStr (parts.map (fun p =>
      str "<p class=\"" ++ className ++ str "\">" ++ p ++ str "</p>"))

/-! Section: Data model (section 3 of the specification, as consumed by the
renderer; JavaScript truthiness on string fields is `!= ""`) -/

structure DetailMeta where
  role : Str
  company : Str
  projectType : Str
  projectDate : Str
deriving DecidableEq

inductive ContentItem where
  | paragraph (content : Str)
  | heading (content : Str)
  | bullet (content : Str)
  | note (content : Str)
  | image (src : Str) (caption : Str)
deriving DecidableEq

structure Block where
  subtitle : Str
  description : Str
  imageSrc : Str
deriving DecidableEq

structure MainContent where
  title : Str
  description : Str
  blocks : List Block
  conclusion : Str
deriving DecidableEq

structure AdditionalImage where
  src : Str
  caption : Str
deriving DecidableEq

structure Link where
  label : Str
  url : Str
deriving DecidableEq

structure ProjectDetail where
  projectId : Int
  heroImage : Str
  meta : DetailMeta
  overview : List ContentItem
  mainContent : Option MainContent
  additionalImages : List AdditionalImage
  keyContributions : List Str
  futureDevelopment : List Str
  skills : List Str
  links : List Link
deriving DecidableEq

structure Project where
  id : Int
  title : Str
  description : Str
  image : Str
  imageStyle : Str
  centerImage : Bool
  detailPage : Str
deriving DecidableEq

/-! Section: Detail page renderer (`generateDetailPageHtml`, lines 148-465) -/

/-- Meta info line (lines 179-190). -/
def metaInfoHtml (meta : DetailMeta) : Str :=
  (if !(meta.role = []) || !(meta.projectType = []) then
    let label := if !(meta.role = []) then str "Role" else str "Project Type"
    let value := if !(meta.role = []) then meta.role else meta.projectType
    str "<strong>" ++ label ++ str ":</strong> " ++ value ++ str "<br>"
  else [])
  ++ (if !(meta.company = []) then
    str "<strong>Company:</strong> " ++ meta.company ++ str "<br>"
  else [])
  ++ (if !(meta.projectDate = []) then
    str "<strong>Project Date:</strong> " ++ meta.projectDate
  else [])

/-- One overview entry (the `switch (item.type)` of lines 195-223). -/
def overviewItemHtml : ContentItem -> Str
  | .paragraph content =>
    str "<p class=\"projects__row-content-desc2\">" ++ content ++ str "</p>"
  | .heading content =>
    str "<p class=\"projects__row-content-desc2\"><strong>" ++ content
      ++ str "</strong></p>"
  | .bullet content =>
    str "<ul class=\"project-details__desc-list\" style=\"margin-bottom: 1rem;\"><li>"
      ++ content ++ str "</li></ul>"
  | .note content =>
    str "<p class=\"projects__row-content-desc2\"><strong>NOTE:</strong> "
      ++ content ++ str "</p>"
  | .image src caption =>
    str "\n              <div class=\"project-details__showcase-img-cont3\">\n                <img\n                  src=\""
      ++ src
      ++ str "\"\n                  alt=\"Project Image\"\n                  class=\"project-details__showcase-img\"\n                />\n              </div>"
      ++ (if !(caption = []) then
            str "<p class=\"projects__row-content-desc\">" ++ caption ++ str "</p>"
          else [])

def overviewHtml (overview : List ContentItem) : Str :=
  joinStr (overview.map overviewItemHtml)

/-- One main-content block (lines 235-261); an all-empty block renders
to the empty string (and is thus invisible to the `.filter(Boolean)`). -/
def blockHtml (block : Block) : Str :=
  let subtitle := jsTrim block.subtitle
  let description := jsTrim block.description
  let imageSrc := jsTrim block.imageSrc
  if subtitle = [] && description = [] && imageSrc = [] then []
  else
    str "<div class=\"project-details__main-content-block\">"
    ++ (if !(subtitle = []) then
          str "<h4 class=\"project-details__content-subtitle\">" ++ subtitle
            ++ str "</h4>"
        else [])
    ++ (if !(imageSrc = []) then
          str "\n                <div class=\"project-details__showcase-img-cont3\">\n                  <img\n                    src=\""
            ++ imageSrc
            ++ str "\"\n                    alt=\"Project Image\"\n                    class=\"project-details__showcase-img\"\n                  />\n                </div>"
        else [])
    ++ (if !(description = []) then renderTextAsParagraphs description else [])
    ++ str "</div>"

/-- Main content section (lines 227-270): emitted only when
`mainContent.title` trims to a nonempty string. -/
def mainContentSectionHtml (mainContent : Option MainContent) : Str :=
  match mainContent with
  | none => []
  | some mc =>
    if jsTrim mc.title = [] then []
    else
      str "\n            <div class=\"project-details__tools-used project-details__main-content\">\n              <h3 class=\"project-details__content-title\">"
      ++ jsTrim mc.title
      ++ str "</h3>\n              "
      ++ renderTextAsParagraphs mc.description
      ++ str "\n              "
      ++ joinStr (mc.blocks.map blockHtml)
      ++ str "\n              "
      ++ renderTextAsParagraphs mc.conclusion
      ++ str "\n            </div>"

/-- One legacy additional image (lines 277-290). -/
def additionalImageHtml (img : AdditionalImage) : Str :=
  (if !(jsTrim img.caption = []) then
    str "<p class=\"project-details__image-title\">" ++ jsTrim img.caption
      ++ str "</p>"
  else [])
  ++ str "\n            <div class=\"project-details__showcase-img-cont\">\n              <img\n                src=\""
  ++ img.src
  ++ str "\"\n                alt=\"Project Image\"\n                class=\"project-details__showcase-img\"\n              />\n            </div>"

/-- Legacy additional-images section (lines 273-297): rendered only when
the main-content html is empty. -/
def additionalImagesSectionHtml (mainContentHtml : Str)
    (additionalImages : List AdditionalImage) : Str :=
  if mainContentHtml = [] && !(additionalImages = []) then
    str "\n            <div class=\"project-details__tools-used\">\n              <h3 class=\"project-details__content-title\">Images</h3>\n              "
    ++ joinStr (additionalImages.map additionalImageHtml)
    ++ str "\n            </div>"
  else []

/-- Embedding of `items.map(sanitizeListItem).filter(Boolean)` (lines 302 and 315). -/
def sanitizedItems (items : List Str) : List Str :=
  (items.map sanitizeListItem).filter (fun s => !(s = []))

/-- The `<li>` markup joined as in lines 307 and 320. -/
def liItemsJoined (items : List Str) : Str :=
  joinSep (str "\n                ")
    (items.map (fun c => str "<li>" ++ c ++ str "</li>"))

/-- Key-contributions section (lines 300-310). -/
def keyContributionsSectionHtml (keyContributions : List Str) : Str :=
  if !(keyContributions = []) then
    str "\n            <div class=\"project-details__tools-used\">\n              <h3 class=\"project-details__content-title\">Key Contributions</h3>\n              <ul class=\"project-details__desc-list\">\n                "
    ++ liItemsJoined (sanitizedItems keyContributions)
    ++ str "\n              </ul>\n            </div>"
  else []

/-- Future-development section (lines 313-323). -/
def futureDevSectionHtml (futureDevelopment : List Str) : Str :=
  if !(futureDevelopment = []) then
    str "\n            <div class=\"project-details__tools-used\">\n              <h3 class=\"project-details__content-title\">Future Development</h3>\n              <ul class=\"project-details__desc-list\">\n                "
    ++ liItemsJoined (sanitizedItems futureDevelopment)
    ++ str "\n              </ul>\n            </div>"
  else []

/-- Skills section (lines 326-335). -/
def skillsSectionHtml (skills : List Str) : Str :=
  if !(skills = []) then
    str "\n            <div class=\"project-details__tools-used\">\n              <h3 class=\"project-details__content-title\">Skills and Tools Used</h3>\n              <div class=\"skills\">\n                "
    ++ joinSep (str "\n                ")
        (skills.map (fun skill => str "<div class=\"skills__skill\">" ++ skill ++ str "</div>"))
    ++ str "\n              </div>\n            </div>"
  else []

/-- Links section (lines 338-353). -/
def linksSectionHtml (links : List Link) : Str :=
  if !(links = []) then
    str "\n            <div class=\"project-details__links\">\n              <h3 class=\"project-details__content-title\">Project Links</h3>\n              "
    ++ joinSep (str "\n              ")
        (links.map (fun link =>
          str "\n              <a\n                href=\"" ++ link.url
          ++ str "\"\n                class=\"btn btn--med btn--theme project-details__links-btn\"\n                target=\"_blank\"\n                >"
          ++ link.label ++ str "</a\n              >"))
    ++ str "\n            </div>"
  else []

/-- The fixed outer document template (lines 355-464), abstracted over the
ten spliced values. -/
def detailPageTemplate (projectTitle heroSrc metaInfo overview mainC addImgs
    keyC futC skills links : Str) : Str :=
  str "<!DOCTYPE html>\n<html lang=\"en\">\n  <head>\n    <meta charset=\"UTF-8\" />\n    <meta name=\"viewport\" content=\"width=device-width, initial-scale=1.0\" />\n    <meta http-equiv=\"X-UA-Compatible\" content=\"ie=edge\" />\n    <title>More Details on "
  ++ projectTitle
  ++ str "</title>\n    <meta name=\"description\" content=\"Case study page of Project\" />\n\n    <link rel=\"stylesheet\" href=\"css/style.css\" />\n\n    <link rel=\"preconnect\" href=\"https://fonts.googleapis.com\" />\n    <link rel=\"preconnect\" href=\"https://fonts.gstatic.com\" crossorigin />\n    <link\n      href=\"https://fonts.googleapis.com/css2?family=Source+Sans+Pro:wght@400;600;700;900&display=swap\"\n      rel=\"stylesheet\"\n    />\n  </head>\n  <body>\n    <header class=\"header\">\n      <div class=\"header__content\">\n        <div class=\"header__logo-container\">\n          <div class=\"header__logo-img-cont\">\n            <img\n              src=\"./assets/png/jobx.png\"\n              class=\"header__logo-img\"\n            />\n          </div>\n          <span class=\"header__logo-sub\">Jerel Ong</span>\n        </div>\n        <div class=\"header__main\">\n          <ul class=\"header__links\">\n            <li class=\"header__link-wrapper\">\n              <a href=\"./index.html\" class=\"header__link\"> Home </a>\n            </li>\n            <li class=\"header__link-wrapper\">\n              <a href=\"./index.html#about\" class=\"header__link\">About </a>\n            </li>\n            <li class=\"header__link-wrapper\">\n              <a href=\"./index.html#projects\" class=\"header__link\">\n                Projects\n              </a>\n            </li>\n          </ul>\n          <div class=\"header__main-ham-menu-cont\">\n            <img\n              src=\"./assets/svg/ham-menu.svg\"\n              alt=\"hamburger menu\"\n              class=\"header__main-ham-menu\"\n            />\n            <img\n              src=\"./assets/svg/ham-menu-close.svg\"\n              alt=\"hamburger menu close\"\n              class=\"header__main-ham-menu-close d-none\"\n            />\n          </div>\n        </div>\n      </div>\n      <div class=\"header__sm-menu\">\n        <div class=\"header__sm-menu-content\">\n          <ul class=\"header__sm-menu-links\">\n            <li class=\"header__sm-menu-link\">\n              <a href=\"./index.html\"> Home </a>\n            </li>\n\n            <li class=\"header__sm-menu-link\">\n              <a href=\"./index.html#about\"> About </a>\n            </li>\n\n            <li class=\"header__sm-menu-link\">\n              <a href=\"./index.html#projects\"> Projects </a>\n            </li>\n          </ul>\n        </div>\n      </div>\n    </header>\n    <section class=\"project-details\">\n      <div class=\"main-container\">\n        <div class=\"project-details__content\">\n          <div class=\"project-details__showcase-img-cont\">\n            <img\n              src=\""
  ++ heroSrc
  ++ str "\"\n              alt=\"Project Image\"\n              class=\"project-details__showcase-img\"\n            />\n          </div>\n          <div class=\"project-details__content-main\">\n            <div class=\"project-details__desc\">\n              <h3 class=\"project-details__content-title--big\">"
  ++ projectTitle
  ++ str "</h3>\n              <p class=\"project-details__desc-para\">\n                "
  ++ metaInfo
  ++ str "\n              </p>\n            </div>\n            <div class=\"project-details__tools-used\">\n              <h3 class=\"project-details__content-title\">Project Overview</h3>\n              "
  ++ overview
  ++ str "\n            </div>\n            "
  ++ mainC
  ++ str "\n            "
  ++ addImgs
  ++ str "\n            "
  ++ keyC
  ++ str "\n            "
  ++ futC
  ++ str "\n            "
  ++ skills
  ++ str "\n            "
  ++ links
  ++ str "\n          </div>\n        </div>\n      </div>\n    </section>\n    <script src=\"./index.js\"></script>\n  </body>\n</html>"

/-- Embedding of `generateDetailPageHtml` (server.js lines 148-465).  Pure and total;
the third parameter is accepted but unused, exactly as in the source. -/
def generateDetailPageHtml (detail : ProjectDetail) (projectTitle : Str)
    (detailPagePath : Str) : Str :=
  let mainC := mainContentSectionHtml detail.mainContent
  detailPageTemplate projectTitle
    (if !(detail.heroImage = []) then detail.heroImage
     else str "./assets/jpeg/project-placeholder.jpg")
    (metaInfoHtml detail.meta)
    (overviewHtml detail.overview)
    mainC
    (additionalImagesSectionHtml mainC detail.additionalImages)
    (keyContributionsSectionHtml detail.keyContributions)
    (futureDevSectionHtml detail.futureDevelopment)
    (skillsSectionHtml detail.skills)
    (linksSectionHtml detail.links)

/-! Section: Safe file materializer, write path (`saveDetailPageHtml`,
server.js lines 468-483, and `ensureDetailPagesExist`, lines 485-546) -/

/-- Embedding of `detailPagePath.replace(/^\.\//, '')` (no trim, used on
the write path). -/
def stripDotSlash (p : Str) : Str :=
  if (str "./").isPrefixOf p then p.drop 2 else p

/-- Embedding of `saveDetailPageHtml` (lines 468-483): looks up the detail
record, renders, and writes to `path.join(ROOT_DIR, relative)` with no
containment check.  Returns the boolean result, the filesystem after the
call, and the list of paths written. -/
def saveDetailPageHtmlOp (root : FsPath) (details : List ProjectDetail)
    (projectId : Int) (projectTitle : Str) (detailPagePath : Str)
    (fs : FS) : Bool × FS × List FsPath :=
  match details.find? (fun d => d.projectId = projectId) with
  | none => (false, fs, [])
  | some detail =>
    let html := generateDetailPageHtml detail projectTitle detailPagePath
    let filePath := joinPath root (stripDotSlash detailPagePath)
    (true, fsWrite fs filePath html, [filePath])

/-- The default detail record synthesized at lines 512-533. -/
def defaultDetail (project : Project) : ProjectDetail where
  projectId := project.id
  heroImage :=
    if !(project.image = []) then project.image
    else str "./assets/jpeg/project-placeholder.jpg"
  meta := ⟨[], [], [], []⟩
  overview :=
    [.paragraph (if !(project.description = []) then project.description
                 else str "Project overview coming soon...")]
  mainContent := none
  additionalImages := []
  keyContributions := []
  futureDevelopment := []
  skills := []
  links := []

/-- The write target of a project's detail page on the write path:
`path.join(ROOT_DIR, project.detailPage.replace(/^\.\//, ''))`. -/
def targetPath (root : FsPath) (project : Project) : FsPath :=
  joinPath root (stripDotSlash project.detailPage)

/-- State threaded through `ensureDetailPagesExist`: the filesystem, the
details store, and the log of paths written. -/
structure EnsureState where
  fs : FS
  details : List ProjectDetail
  writes : List FsPath
deriving DecidableEq

/-- One iteration of the loop of `ensureDetailPagesExist` (lines 493-541):
skip projects without a `detailPage`, skip existing files, otherwise find
or synthesize the detail record and write the generated page. -/
def ensureStep (root : FsPath) (st : EnsureState) (project : Project) :
    EnsureState :=
  if project.detailPage = [] then st
  else
    let filePath := targetPath root project
    if fsExists st.fs filePath then st
    else
      let found := st.details.find? (fun d => d.projectId = project.id)
      let detail := found.getD (defaultDetail project)
      let details1 :=
        match found with
        | some _ => st.details
        | none => st.details ++ [defaultDetail project]
      let html := generateDetailPageHtml detail project.title project.detailPage
      ⟨fsWrite st.fs filePath html, details1, st.writes ++ [filePath]⟩

/-- Embedding of `ensureDetailPagesExist` (lines 485-546). -/
def ensureDetailPagesExist (root : FsPath) (projects : List Project)
    (details : List ProjectDetail) (fs : FS) : EnsureState :=
  projects.foldl (ensureStep root) ⟨fs, details, []⟩

/-! Section: Listing section patcher (`generateIndexHtml`, lines 549-641) -/

def projectsStartMarker : Str := str "<section id=\"projects\" class=\"projects sec-pad\">"

def nextSectionStartMarker : Str := str "<script src=\"./index.js\">"

def closingSectionTag : Str := str "</section>"

/-- Backward scan of lines 570-576: from `i` downward, `fuel` positions,
return the end offset (`i + 10`) of the first `</section>` found. -/
def backScanAux (s : Str) : Nat → Nat → Option Nat
  | 0, _ => none
  | fuel + 1, i =>
    if occursAtB closingSectionTag s i then some (i + 10)
    else backScanAux s fuel (i - 1)

/-- The computed end of the region to replace: the backward scan from
`n1 - 1` down to `s1`, defaulting to `n1` when no closing tag is found. -/
def computedEnd (s : Str) (s1 n1 : Nat) : Nat :=
  (backScanAux s (n1 - s1) (n1 - 1)).getD n1

/-- One project row of the listing (lines 579-621), including the
description-wrapping rule of lines 584-599. -/
def projectRowHtml (project : Project) : Str :=
  let imageStyle :=
    if !(project.imageStyle = []) then
      str " style=\"" ++ project.imageStyle ++ str "\""
    else []
  let centerClass :=
    if project.centerImage then str " projects__row--center-img" else []
  let descContent :=
    if containsSubstr project.description (str "<p") then
      if containsSubstr project.description (str "class=\"projects__row-content-desc")
          || containsSubstr project.description (str "class='projects__row-content-desc") then
        project.description
      else
        str "<div class=\"projects__row-content-desc\">" ++ project.description
          ++ str "</div>"
    else
      str "<p class=\"projects__row-content-desc\">" ++ project.description
        ++ str "</p>"
  str "        <div class=\"projects__row" ++ centerClass
  ++ str "\">\n          <div class=\"projects__row-img-cont\">\n            <img\n              src=\""
  ++ project.image
  ++ str "\"\n              alt=\"" ++ project.title
  ++ str "\"\n              class=\"projects__row-img\"\n              loading=\"lazy\""
  ++ imageStyle
  ++ str "\n            />\n          </div>\n          <div class=\"projects__row-content\">\n            <h3 class=\"projects__row-content-title\">"
  ++ project.title
  ++ str "</h3>\n            " ++ descContent
  ++ str "\n            <a\n              href=\"" ++ project.detailPage
  ++ str "\"\n              class=\"btn btn--med btn--theme dynamicBgClr\"\n              target=\"_blank\"\n              >More Details</a\n            >\n          </div>\n        </div>"

/-- The fixed text of the fresh listing section before the rows. -/
def listingHeaderStr : Str :=
  str "    <section id=\"projects\" class=\"projects sec-pad\">\n      <div class=\"main-container\">\n        <h2 class=\"heading heading-sec heading-sec__mb-bg\">\n          <span class=\"heading-sec__main\">Projects</span>\n        </h2>\n"

/-- The fixed text of the fresh listing section after the rows. -/
def listingFooterStr : Str := str "\n      </div>\n    </section>"

/-- The freshly rendered listing section (lines 624-631). -/
def newProjectsSection (projects : List Project) : Str :=
  listingHeaderStr ++ joinSep (str "\n") (projects.map projectRowHtml)
  ++ listingFooterStr

/-- The pure patching core of `generateIndexHtml` (lines 556-637):
`none` when either marker is absent, otherwise the substring splice. -/
def patchIndexHtml (doc : Str) (projects : List Project) : Option Str :=
  match firstIdx doc projectsStartMarker with
  | none => none
  | some s1 =>
    match firstIdxFrom doc nextSectionStartMarker s1 with
    | none => none
    | some n1 =>
      some (doc.take s1 ++ newProjectsSection projects
            ++ doc.drop (computedEnd doc s1 n1))

/-- File-level behaviour of `generateIndexHtml`: the document after the
call, and whether a write occurred (the marker-missing branch of lines
563-566 returns without writing). -/
def generateIndexHtmlOp (projects : List Project) (doc : Str) : Str × Bool :=
  match patchIndexHtml doc projects with
  | none => (doc, false)
  | some newDoc => (newDoc, true)

/-! Section: supporting lemmas for the patcher theorems -/

theorem backScanAux_eq_none (s : Str) : ∀ (fuel i : Nat),
    (∀ j, j ≤ i → i < j + fuel → occursAtB closingSectionTag s j = false) →
    backScanAux s fuel i = none := by
  intro fuel
  induction fuel with
  | zero => intro i _; rfl
  | succ fuel ih =>
    intro i h
    have hi : occursAtB closingSectionTag s i = false :=
      h i (Nat.le_refl i) (by omega)
    simp only [backScanAux, hi, Bool.false_eq_true, if_false]
    exact ih (i - 1) (fun j hj1 hj2 => h j (by omega) (by omega))

theorem computedEnd_of_no_close {doc : Str} {s1 n1 : Nat} (hle : s1 ≤ n1)
    (hno : ∀ j, j < n1 → s1 ≤ j → occursAtB closingSectionTag doc j = false) :
    computedEnd doc s1 n1 = n1 := by
  have : backScanAux doc (n1 - s1) (n1 - 1) = none := by
    apply backScanAux_eq_none
    intro j hj1 hj2
    exact hno j (by omega) (by omega)
  simp [computedEnd, this]

theorem length_take_of_marker {doc : Str} {s1 : Nat} (h : s1 < doc.length) :
    (doc.take s1).length = s1 := by
  simp [List.length_take, Nat.min_eq_left (Nat.le_of_lt h)]

/-! Section: concrete documents used as witnesses below -/

/-- A well-formed document: prefix, listing section closed by its tag,
then the script marker and a tail. -/
def markedDoc : Str :=
  str "<html>\n    " ++ projectsStartMarker ++ str "stuff</section>\n    "
  ++ nextSectionStartMarker ++ str "</script></html>"

/-- A document with both markers but no closing tag between them. -/
def noCloseDoc : Str :=
  str "<html>" ++ projectsStartMarker ++ str "xx" ++ nextSectionStartMarker
  ++ str "</script>"

/-- A document containing no listing-start marker. -/
def noMarkerDoc : Str := str "<html><body>nothing here</body></html>"

/-- The patched form of `markedDoc` (its listing region is
`[11, 74)`; the script marker sits at offset 79). -/
def markedDocPatched : Str :=
  markedDoc.take 11 ++ newProjectsSection [] ++ markedDoc.drop 74


/-! Section: claims C5, C6 and C10 (listing section patcher) -/

/-- C5: for every document in which both markers are found, the patched
result equals the substring of the document before the listing start,
followed by the newly rendered section, followed by the substring from the
computed end onward; every byte outside `[listingStart, computedEnd)` is
preserved exactly (the prefix and the suffix of the result coincide with
those of the input document). -/
theorem c5_patch_is_splice :
    ∀ (doc : Str) (projects : List Project) (s1 n1 : Nat),
    firstIdx doc projectsStartMarker = some s1 →
    firstIdxFrom doc nextSectionStartMarker s1 = some n1 →
    patchIndexHtml doc projects
        = some (doc.take s1 ++ newProjectsSection projects
                ++ doc.drop (computedEnd doc s1 n1))
      ∧ ∀ R, patchIndexHtml doc projects = some R →
          R.take s1 = doc.take s1
          ∧ R.drop (s1 + (newProjectsSection projects).length)
              = doc.drop (computedEnd doc s1 n1) := by
  intro doc projects s1 n1 h1 h2
  have hpatch : patchIndexHtml doc projects
      = some (doc.take s1 ++ newProjectsSection projects
              ++ doc.drop (computedEnd doc s1 n1)) := by
    simp [patchIndexHtml, h1, h2]
  refine ⟨hpatch, ?_⟩
  intro R hR
  rw [hpatch, Option.some.injEq] at hR
  subst hR
  have hlt : s1 < doc.length :=
    firstIdxFrom_lt_length (by decide) h1
  have hT : (doc.take s1).length = s1 := length_take_of_marker hlt
  have hTN : (doc.take s1 ++ newProjectsSection projects).length
      = s1 + (newProjectsSection projects).length := by
    rw [List.length_append, hT]
  constructor
  · rw [List.take_append_eq_append_take, hTN,
      Nat.sub_eq_zero_of_le (Nat.le_add_right _ _), List.take_zero,
      List.append_nil, List.take_append_eq_append_take, hT, Nat.sub_self,
      List.take_zero, List.append_nil, List.take_take, Nat.min_self]
  · rw [← hTN, List.drop_left]

/-- C6: for every document in which either the listing-start marker or the
next-section marker (searched from the listing start) is absent, the
patcher reports the condition (no patched document is produced) and the
document is left entirely unchanged, with no write occurring. -/
theorem c6_missing_markers_no_write :
    ∀ (doc : Str) (projects : List Project),
    (firstIdx doc projectsStartMarker = none
      ∨ ∃ s1, firstIdx doc projectsStartMarker = some s1
          ∧ firstIdxFrom doc nextSectionStartMarker s1 = none) →
    patchIndexHtml doc projects = none
      ∧ generateIndexHtmlOp projects doc = (doc, false) := by
  intro doc projects h
  have hnone : patchIndexHtml doc projects = none := by
    rcases h with h1 | ⟨s1, h1, h2⟩
    · simp [patchIndexHtml, h1]
    · simp [patchIndexHtml, h1, h2]
  exact ⟨hnone, by simp [generateIndexHtmlOp, hnone]⟩

/-- C10: for every document containing both markers but no occurrence of
`</section>` starting between the listing-start offset and the
next-section-marker offset, the computed end of the replaced region equals
the next-section-marker offset itself, so the splice preserves the
next-section marker (a prefix of the kept suffix) and every byte from it
onward. -/
theorem c10_no_close_keeps_marker :
    ∀ (doc : Str) (projects : List Project) (s1 n1 : Nat),
    firstIdx doc projectsStartMarker = some s1 →
    firstIdxFrom doc nextSectionStartMarker s1 = some n1 →
    (∀ j, j < n1 → s1 ≤ j → occursAtB closingSectionTag doc j = false) →
    computedEnd doc s1 n1 = n1
      ∧ patchIndexHtml doc projects
          = some (doc.take s1 ++ newProjectsSection projects ++ doc.drop n1)
      ∧ nextSectionStartMarker.isPrefixOf (doc.drop n1) = true := by
  intro doc projects s1 n1 h1 h2 hno
  have hle : s1 ≤ n1 := (firstIdxFrom_sound h2).2
  have hend : computedEnd doc s1 n1 = n1 := computedEnd_of_no_close hle hno
  refine ⟨hend, ?_, (firstIdxFrom_sound h2).1⟩
  simp [patchIndexHtml, h1, h2, hend]

/-- Witness for C5 at a concrete document. -/
theorem c5_witness :
    patchIndexHtml markedDoc []
      = some (markedDoc.take 11 ++ newProjectsSection []
              ++ markedDoc.drop (computedEnd markedDoc 11 79)) :=
  (c5_patch_is_splice markedDoc [] 11 79 (by decide) (by decide)).1

/-- Witness for C6 at a concrete document with no listing marker. -/
theorem c6_witness :
    patchIndexHtml noMarkerDoc [] = none
      ∧ generateIndexHtmlOp [] noMarkerDoc = (noMarkerDoc, false) :=
  c6_missing_markers_no_write noMarkerDoc [] (Or.inl (by decide))

/-- Witness for C10 at a concrete document with no closing tag between
the markers. -/
theorem c10_witness :
    computedEnd noCloseDoc 6 56 = 56
      ∧ patchIndexHtml noCloseDoc []
          = some (noCloseDoc.take 6 ++ newProjectsSection []
                  ++ noCloseDoc.drop 56)
      ∧ nextSectionStartMarker.isPrefixOf (noCloseDoc.drop 56) = true :=
  c10_no_close_keeps_marker noCloseDoc [] 6 56 (by decide) (by decide)
    (by decide)

/-! Section: claim C4 (patch idempotence fails: each repatch inserts four
spaces of indentation before the listing section, because the splice keeps
the original indentation in the prefix while the freshly rendered section
carries its own four leading spaces) -/

/-- C4 counterexample: at the concrete document `markedDoc` and the empty
project list, patching the once-patched document does not reproduce it, so
`patch(patch(doc,P),P) = patch(doc,P)` fails as stated. -/
theorem c4_counterexample :
    (patchIndexHtml markedDoc []).bind (fun d => patchIndexHtml d [])
      ≠ patchIndexHtml markedDoc [] := by decide

/-- C4 as amended: the listing-section patch is not idempotent.  When the
repatch finds the markers of the once-patched document `R` at their
canonical positions (the start marker four characters right of the old
listing start, since the fresh section begins with four spaces of
indentation; the computed end at the end of the fresh section), the second
patch yields the first result with four extra spaces inserted before the
listing section — in particular it differs from the first result. -/
theorem c4_amended_repatch_inserts_indent :
    ∀ (doc : Str) (projects : List Project) (s1 n1 n2 : Nat) (R : Str),
    firstIdx doc projectsStartMarker = some s1 →
    firstIdxFrom doc nextSectionStartMarker s1 = some n1 →
    patchIndexHtml doc projects = some R →
    firstIdx R projectsStartMarker = some (s1 + 4) →
    firstIdxFrom R nextSectionStartMarker (s1 + 4) = some n2 →
    computedEnd R (s1 + 4) n2 = s1 + (newProjectsSection projects).length →
    patchIndexHtml R projects
        = some (doc.take s1 ++ str "    " ++ newProjectsSection projects
                ++ doc.drop (computedEnd doc s1 n1))
      ∧ patchIndexHtml R projects ≠ some R := by
  intro doc projects s1 n1 n2 R h1 h2 h3 h4 h5 h6
  have hpatch : patchIndexHtml doc projects
      = some (doc.take s1 ++ newProjectsSection projects
              ++ doc.drop (computedEnd doc s1 n1)) := by
    simp [patchIndexHtml, h1, h2]
  rw [hpatch, Option.some.injEq] at h3
  subst h3
  have hlt : s1 < doc.length := firstIdxFrom_lt_length (by decide) h1
  have hT : (doc.take s1).length = s1 := length_take_of_marker hlt
  have hTN : (doc.take s1 ++ newProjectsSection projects).length
      = s1 + (newProjectsSection projects).length := by
    rw [List.length_append, hT]
  have hpatch2 : patchIndexHtml
      (doc.take s1 ++ newProjectsSection projects
        ++ doc.drop (computedEnd doc s1 n1)) projects
      = some ((doc.take s1 ++ newProjectsSection projects
              ++ doc.drop (computedEnd doc s1 n1)).take (s1 + 4)
          ++ newProjectsSection projects
          ++ (doc.take s1 ++ newProjectsSection projects
              ++ doc.drop (computedEnd doc s1 n1)).drop
                (s1 + (newProjectsSection projects).length)) := by
    simp only [patchIndexHtml, h4, h5, h6]
  have h4NS : 4 ≤ (newProjectsSection projects).length := by
    have hh : 4 ≤ listingHeaderStr.length := by decide
    calc 4 ≤ listingHeaderStr.length := hh
    _ ≤ (newProjectsSection projects).length := by
        rw [newProjectsSection, List.append_assoc, List.length_append]
        exact Nat.le_add_right _ _
  have hNS4 : (newProjectsSection projects).take 4 = str "    " := by
    rw [newProjectsSection, List.append_assoc, List.take_append_eq_append_take]
    have h0 : (4 : Nat) - listingHeaderStr.length = 0 := by decide
    rw [h0, List.take_zero, List.append_nil]
    decide
  have htakeR : (doc.take s1 ++ newProjectsSection projects
      ++ doc.drop (computedEnd doc s1 n1)).take (s1 + 4)
      = doc.take s1 ++ str "    " := by
    rw [List.take_append_eq_append_take, hTN]
    have h0 : s1 + 4 - (s1 + (newProjectsSection projects).length) = 0 := by
      omega
    rw [h0, List.take_zero, List.append_nil,
      List.take_append_eq_append_take, hT, Nat.add_sub_cancel_left,
      List.take_take, Nat.min_eq_right (by omega), hNS4]
  have hdropR : (doc.take s1 ++ newProjectsSection projects
      ++ doc.drop (computedEnd doc s1 n1)).drop
        (s1 + (newProjectsSection projects).length)
      = doc.drop (computedEnd doc s1 n1) := by
    rw [← hTN, List.drop_left]
  rw [hpatch2, htakeR, hdropR]
  refine ⟨rfl, ?_⟩
  intro hcontra
  rw [Option.some.injEq] at hcontra
  have hlen := congrArg List.length hcontra
  have h4len : (str "    ").length = 4 := by decide
  simp only [List.length_append, h4len] at hlen
  omega

/-- Witness for the amended C4 at the concrete document `markedDoc`:
repatching the patched document inserts four spaces and so differs. -/
theorem c4_amended_witness :
    patchIndexHtml markedDocPatched []
        = some (markedDoc.take 11 ++ str "    " ++ newProjectsSection []
                ++ markedDoc.drop (computedEnd markedDoc 11 79))
      ∧ patchIndexHtml markedDocPatched [] ≠ some markedDocPatched :=
  c4_amended_repatch_inserts_indent markedDoc [] 11 79
    (16 + (newProjectsSection []).length) markedDocPatched
    (by decide) (by decide) (by decide) (by decide) (by decide) (by decide)

/-! Section: claims C7, C8 and C9 (detail page renderer) -/

/-- When the main-content title trims nonempty, the main-content section
html is nonempty (it begins with fixed markup). -/
theorem mainContentSectionHtml_ne_nil {mc : MainContent}
    (htitle : ¬ jsTrim mc.title = []) :
    mainContentSectionHtml (some mc) ≠ [] := by
  simp only [mainContentSectionHtml]
  rw [if_neg htitle]
  exact List.append_ne_nil_of_left_ne_nil
    (List.append_ne_nil_of_left_ne_nil
      (List.append_ne_nil_of_left_ne_nil
        (List.append_ne_nil_of_left_ne_nil
          (List.append_ne_nil_of_left_ne_nil
            (List.append_ne_nil_of_left_ne_nil
              (List.append_ne_nil_of_left_ne_nil
                (List.append_ne_nil_of_left_ne_nil (by decide) _) _) _) _) _) _) _) _

/-- C7: for every ProjectDetail in which `mainContent.title` is set (the
code's guard: the title trims to a nonempty string), the legacy
`additionalImages` section never appears in the renderer's output — the
output does not depend on the contents of `additionalImages` at all, and
equals the output with `additionalImages` emptied. -/
theorem c7_main_content_excludes_legacy_images :
    ∀ (d : ProjectDetail) (t p : Str) (imgs : List AdditionalImage)
      (mc : MainContent),
    d.mainContent = some mc → ¬ jsTrim mc.title = [] →
    generateDetailPageHtml { d with additionalImages := imgs } t p
      = generateDetailPageHtml { d with additionalImages := [] } t p := by
  intro d t p imgs mc hmc htitle
  have hne : mainContentSectionHtml d.mainContent ≠ [] := by
    rw [hmc]; exact mainContentSectionHtml_ne_nil htitle
  have hdec : decide (mainContentSectionHtml d.mainContent = []) = false :=
    decide_eq_false hne
  have haddA : additionalImagesSectionHtml
      (mainContentSectionHtml d.mainContent) imgs = [] := by
    simp [additionalImagesSectionHtml, hdec]
  have haddB : additionalImagesSectionHtml
      (mainContentSectionHtml d.mainContent) [] = [] := by
    simp [additionalImagesSectionHtml]
  simp only [generateDetailPageHtml, haddA, haddB]

/-- Witness for C7: a concrete detail record with a main-content title and
nonempty legacy images renders identically with the images removed. -/
theorem c7_witness :
    generateDetailPageHtml
      { projectId := 5, heroImage := [], meta := ⟨[], [], [], []⟩,
        overview := [], mainContent := some ⟨str "Story", [], [], []⟩,
        additionalImages := [⟨str "a.png", str "cap"⟩],
        keyContributions := [], futureDevelopment := [], skills := [],
        links := [] } (str "T") (str "./project-5.html")
    = generateDetailPageHtml
      { projectId := 5, heroImage := [], meta := ⟨[], [], [], []⟩,
        overview := [], mainContent := some ⟨str "Story", [], [], []⟩,
        additionalImages := [],
        keyContributions := [], futureDevelopment := [], skills := [],
        links := [] } (str "T") (str "./project-5.html") :=
  c7_main_content_excludes_legacy_images
    { projectId := 5, heroImage := [], meta := ⟨[], [], [], []⟩,
      overview := [], mainContent := some ⟨str "Story", [], [], []⟩,
      additionalImages := [⟨str "a.png", str "cap"⟩],
      keyContributions := [], futureDevelopment := [], skills := [],
      links := [] } (str "T") (str "./project-5.html")
    [⟨str "a.png", str "cap"⟩] ⟨str "Story", [], [], []⟩ rfl (by decide)

/-- C8: list-item sanitization applied to the contribution input
`<ul><li>Built <strong>X</strong></li></ul>` yields exactly
`Built <strong>X</strong>` (list-wrapper and list-item tags stripped,
inner markup preserved); and for every key-contribution or
future-development item list, an item that sanitizes to the empty string
is dropped: the sanitized item sequence and the rendered `<li>` markup are
the same with and without such an item (both sections render items through
the same `sanitizeListItem`/filter pipeline). -/
theorem c8_sanitization :
    sanitizeListItem (str "<ul><li>Built <strong>X</strong></li></ul>")
        = str "Built <strong>X</strong>"
      ∧ (∀ (l1 l2 : List Str) (x : Str), sanitizeListItem x = [] →
          sanitizedItems (l1 ++ x :: l2) = sanitizedItems (l1 ++ l2))
      ∧ (∀ (l1 l2 : List Str) (x : Str), sanitizeListItem x = [] →
          liItemsJoined (sanitizedItems (l1 ++ x :: l2))
            = liItemsJoined (sanitizedItems (l1 ++ l2))) := by
  have hdrop : ∀ (l1 l2 : List Str) (x : Str), sanitizeListItem x = [] →
      sanitizedItems (l1 ++ x :: l2) = sanitizedItems (l1 ++ l2) := by
    intro l1 l2 x hx
    simp [sanitizedItems, hx]
  exact ⟨by decide, hdrop,
    fun l1 l2 x hx => congrArg liItemsJoined (hdrop l1 l2 x hx)⟩

/-- Witness for C8 at a concrete list: the item `<ul></ul>` sanitizes to
the empty string and is dropped from the rendered list. -/
theorem c8_witness :
    sanitizedItems [str "- alpha", str "<ul></ul>", str "beta"]
      = sanitizedItems [str "- alpha", str "beta"]
    ∧ liItemsJoined (sanitizedItems [str "- alpha", str "<ul></ul>", str "beta"])
      = liItemsJoined (sanitizedItems [str "- alpha", str "beta"]) :=
  ⟨c8_sanitization.2.1 [str "- alpha"] [str "beta"] (str "<ul></ul>")
      (by decide),
   c8_sanitization.2.2 [str "- alpha"] [str "beta"] (str "<ul></ul>")
      (by decide)⟩

/-- A ProjectDetail with every optional field absent (empty strings model
JavaScript's missing/null string fields, which are falsy exactly like
`''`; empty lists model absent arrays; `none` models a null
`mainContent`). -/
def absentDetail : ProjectDetail :=
  ⟨0, [], ⟨[], [], [], []⟩, [], none, [], [], [], [], []⟩

/-- C9: `render` is total — in this embedding `generateDetailPageHtml` is
a total function by construction, defined for every ProjectDetail — and on
a ProjectDetail with all optional fields absent it returns the complete
fixed HTML document in which the main-content, legacy-images, skills and
links slots (as well as the meta, overview, contributions and
future-development slots) are all empty, with the hero image falling back
to the placeholder path. -/
theorem c9_render_total_minimal :
    ∀ (t p : Str),
    generateDetailPageHtml absentDetail t p
      = detailPageTemplate t (str "./assets/jpeg/project-placeholder.jpg")
          [] [] [] [] [] [] [] [] := by
  intro t p
  rfl

/-! Section: claims C1 and C2 (safe file materializer) -/

/-- A concrete site root used in the theorems below. -/
def siteRoot : FsPath := [str "home", str "site"]

/-- A concrete filesystem holding one generated detail page. -/
def sampleFs : FS :=
  [([str "home", str "site", str "project-3.html"], str "old")]

/-- C2 counterexample: `deleteGenerated("../outside.html")` is refused
with reason `not-generated`, not `unsafe-path` as the claim states —
the naming-convention check (on the basename `outside.html`) fires before
the path-containment check is ever reached.  The filesystem is untouched. -/
theorem c2_counterexample :
    (deleteGeneratedProjectDetailHtmlFile siteRoot sampleFs
        (str "../outside.html")).1.reason = some (str "not-generated")
      ∧ ¬ (deleteGeneratedProjectDetailHtmlFile siteRoot sampleFs
        (str "../outside.html")).1.reason = some (str "unsafe-path")
      ∧ (deleteGeneratedProjectDetailHtmlFile siteRoot sampleFs
        (str "../outside.html")).2 = sampleFs := by decide

/-- C2 as amended: `deleteGenerated("./project-3.html")` deletes the file;
`deleteGenerated("./about.html")` is refused with reason `not-generated`
without touching the filesystem; `deleteGenerated("../outside.html")` is
likewise refused `not-generated` (its basename fails the generated-name
pattern before the path check runs); the `unsafe-path` refusal arises for
a conforming name resolving outside the root, e.g.
`deleteGenerated("../project-3.html")`; and a conforming but missing file
is reported as `not-found` without raising. -/
theorem c2_amended_delete_behaviour :
    deleteGeneratedProjectDetailHtmlFile siteRoot sampleFs
        (str "./project-3.html") = (⟨true, none⟩, [])
      ∧ deleteGeneratedProjectDetailHtmlFile siteRoot sampleFs
        (str "./about.html") = (⟨false, some (str "not-generated")⟩, sampleFs)
      ∧ deleteGeneratedProjectDetailHtmlFile siteRoot sampleFs
        (str "../outside.html")
          = (⟨false, some (str "not-generated")⟩, sampleFs)
      ∧ deleteGeneratedProjectDetailHtmlFile siteRoot sampleFs
        (str "../project-3.html")
          = (⟨false, some (str "unsafe-path")⟩, sampleFs)
      ∧ deleteGeneratedProjectDetailHtmlFile siteRoot sampleFs
        (str "./project-7.html")
          = (⟨false, some (str "not-found")⟩, sampleFs) := by
  refine ⟨?_, ?_, ?_, ?_, ?_⟩ <;> decide

/-- A detail record for project 1, used by the C1 theorems. -/
def sampleDetail : ProjectDetail :=
  ⟨1, [], ⟨[], [], [], []⟩, [], none, [], [], [], [], []⟩

/-- A project whose `detailPage` escapes the site root. -/
def evilProject : Project :=
  ⟨1, str "T", str "d", str "i.jpg", [], false, str "../evil.html"⟩

/-- C1 counterexample: with `detailPage = "../evil.html"`, both
`saveDetailPageHtml` and `ensureDetailPagesExist` write to
`/home/evil.html`, which lies outside the site root `/home/site` — there
is no containment check on the write path, so a path resolving outside
the site root is written to. -/
theorem c1_counterexample :
    (saveDetailPageHtmlOp siteRoot [sampleDetail] 1 (str "T")
        (str "../evil.html") []).1 = true
      ∧ (saveDetailPageHtmlOp siteRoot [sampleDetail] 1 (str "T")
        (str "../evil.html") []).2.2 = [[str "home", str "evil.html"]]
      ∧ insideRoot siteRoot [str "home", str "evil.html"] = false
      ∧ (ensureDetailPagesExist siteRoot [evilProject] [] []).writes
          = [[str "home", str "evil.html"]] := by decide

/-- C1 as amended: the write path normalizes a possibly `./`-prefixed
relative path and resolves it against the site root, but performs no
containment check whatsoever: whenever the detail record is found
(respectively whenever the target file does not yet exist), the write is
performed at the resolved location unconditionally, whether or not that
location lies inside the site root. -/
theorem c1_amended_write_unconditional :
    (∀ (root : FsPath) (details : List ProjectDetail) (pid : Int)
       (t p : Str) (fs : FS) (d : ProjectDetail),
       details.find? (fun x => x.projectId = pid) = some d →
       saveDetailPageHtmlOp root details pid t p fs
         = (true,
            fsWrite fs (joinPath root (stripDotSlash p))
              (generateDetailPageHtml d t p),
            [joinPath root (stripDotSlash p)]))
      ∧ (∀ (root : FsPath) (st : EnsureState) (proj : Project),
         ¬ proj.detailPage = [] →
         fsExists st.fs (targetPath root proj) = false →
         (ensureStep root st proj).writes
           = st.writes ++ [targetPath root proj]) := by
  constructor
  · intro root details pid t p fs d hfind
    simp [saveDetailPageHtmlOp, hfind]
  · intro root st proj hpage hexists
    simp [ensureStep, hpage, hexists]

/-- Witness for the amended C1 at concrete inputs. -/
theorem c1_amended_witness :
    saveDetailPageHtmlOp siteRoot [sampleDetail] 1 (str "T")
        (str "../evil.html") []
      = (true,
         fsWrite [] (joinPath siteRoot (stripDotSlash (str "../evil.html")))
           (generateDetailPageHtml sampleDetail (str "T")
             (str "../evil.html")),
         [joinPath siteRoot (stripDotSlash (str "../evil.html"))])
    ∧ (ensureStep siteRoot ⟨[], [], []⟩ evilProject).writes
      = [] ++ [targetPath siteRoot evilProject] :=
  ⟨c1_amended_write_unconditional.1 siteRoot [sampleDetail] 1 (str "T")
      (str "../evil.html") [] sampleDetail (by decide),
   c1_amended_write_unconditional.2 siteRoot ⟨[], [], []⟩ evilProject
      (by decide) (by decide)⟩

/-! Section: claim C3 (idempotent detail-page generation) -/

theorem fsExists_write_self (fs : FS) (p : FsPath) (c : Str) :
    fsExists (fsWrite fs p c) p = true := by
  simp [fsExists, fsWrite]

/-- One ensure iteration never disturbs a file that already exists: its
binding is unchanged and its path is not appended to the write log. -/
theorem ensureStep_preserves (root : FsPath) (st : EnsureState)
    (proj : Project) (p : FsPath) (hex : fsExists st.fs p = true)
    (hw : p ∉ st.writes) :
    fsRead (ensureStep root st proj).fs p = fsRead st.fs p
      ∧ fsExists (ensureStep root st proj).fs p = true
      ∧ p ∉ (ensureStep root st proj).writes := by
  by_cases hpage : proj.detailPage = []
  · simp [ensureStep, hpage, hex, hw]
  · by_cases htgt : fsExists st.fs (targetPath root proj) = true
    · simp [ensureStep, hpage, htgt, hex, hw]
    · have hne : p ≠ targetPath root proj := by
        intro hcontra; rw [hcontra] at hex; exact htgt hex
      simp only [ensureStep, hpage, if_neg, htgt, Bool.false_eq_true,
        if_false]
      refine ⟨fsRead_write_ne st.fs _ hne, fsExists_write st.fs _ _ _ hex, ?_⟩
      simp only [List.mem_append, List.mem_singleton]
      rintro (h | h)
      · exact hw h
      · exact hne h

/-- Existence of any file is monotone along one ensure iteration. -/
theorem ensureStep_exists_mono (root : FsPath) (st : EnsureState)
    (proj : Project) (p : FsPath) (hex : fsExists st.fs p = true) :
    fsExists (ensureStep root st proj).fs p = true := by
  by_cases hpage : proj.detailPage = []
  · simpa [ensureStep, hpage] using hex
  · by_cases htgt : fsExists st.fs (targetPath root proj) = true
    · simpa [ensureStep, hpage, htgt] using hex
    · simp only [ensureStep]
      rw [if_neg hpage, if_neg (by simp [htgt])]
      exact fsExists_write st.fs _ _ _ hex

/-- After one ensure iteration of a project with a `detailPage`, its
target file exists. -/
theorem ensureStep_target_exists (root : FsPath) (st : EnsureState)
    (proj : Project) (hpage : ¬ proj.detailPage = []) :
    fsExists (ensureStep root st proj).fs (targetPath root proj) = true := by
  by_cases htgt : fsExists st.fs (targetPath root proj) = true
  · simp [ensureStep, hpage, htgt]
  · simp only [ensureStep]
    rw [if_neg hpage, if_neg (by simp [htgt])]
    exact fsExists_write_self st.fs _ _

/-- A project whose page name is empty or whose target already exists is
skipped outright. -/
theorem ensureStep_skip (root : FsPath) (st : EnsureState) (proj : Project)
    (h : proj.detailPage = []
      ∨ fsExists st.fs (targetPath root proj) = true) :
    ensureStep root st proj = st := by
  rcases h with h | h
  · simp [ensureStep, h]
  · simp [ensureStep, h]

theorem ensure_fold_preserves (root : FsPath) (p : FsPath) :
    ∀ (projects : List Project) (st : EnsureState),
    fsExists st.fs p = true → p ∉ st.writes →
    fsRead (projects.foldl (ensureStep root) st).fs p = fsRead st.fs p
      ∧ fsExists (projects.foldl (ensureStep root) st).fs p = true
      ∧ p ∉ (projects.foldl (ensureStep root) st).writes := by
  intro projects
  induction projects with
  | nil => intro st hex hw; exact ⟨rfl, hex, hw⟩
  | cons proj rest ih =>
    intro st hex hw
    obtain ⟨h1, h2, h3⟩ := ensureStep_preserves root st proj p hex hw
    obtain ⟨g1, g2, g3⟩ := ih (ensureStep root st proj) h2 h3
    exact ⟨g1.trans h1, g2, g3⟩

theorem ensure_fold_exists_mono (root : FsPath) (p : FsPath) :
    ∀ (projects : List Project) (st : EnsureState),
    fsExists st.fs p = true →
    fsExists (projects.foldl (ensureStep root) st).fs p = true := by
  intro projects
  induction projects with
  | nil => intro st hex; exact hex
  | cons proj rest ih =>
    intro st hex
    exact ih (ensureStep root st proj) (ensureStep_exists_mono root st proj p hex)

theorem ensure_fold_targets_exist (root : FsPath) :
    ∀ (projects : List Project) (st : EnsureState) (proj : Project),
    proj ∈ projects → ¬ proj.detailPage = [] →
    fsExists (projects.foldl (ensureStep root) st).fs
      (targetPath root proj) = true := by
  intro projects
  induction projects with
  | nil => intro st proj hmem; exact absurd hmem (List.not_mem_nil proj)
  | cons q rest ih =>
    intro st proj hmem hpage
    rcases List.mem_cons.mp hmem with hq | hrest
    · subst hq
      exact ensure_fold_exists_mono root _ rest _
        (ensureStep_target_exists root st proj hpage)
    · exact ih (ensureStep root st q) proj hrest hpage

theorem ensure_fold_skip (root : FsPath) :
    ∀ (projects : List Project) (st : EnsureState),
    (∀ proj ∈ projects, proj.detailPage = []
        ∨ fsExists st.fs (targetPath root proj) = true) →
    projects.foldl (ensureStep root) st = st := by
  intro projects
  induction projects with
  | nil => intro st _; rfl
  | cons q rest ih =>
    intro st h
    have hq : ensureStep root st q = st :=
      ensureStep_skip root st q (h q (List.mem_cons_self q rest))
    rw [List.foldl_cons, hq]
    exact ih st (fun proj hmem => h proj (List.mem_cons_of_mem q hmem))

/-- C3: for every project whose detail-page target file already exists,
"ensure detail pages exist" skips generation entirely — the existing
file's binding is never overwritten and its path is never written; after
a first call every listed project's target file exists; and a second call
on the state produced by the first performs zero writes. -/
theorem c3_ensure_idempotent :
    ∀ (root : FsPath) (projects : List Project)
      (details : List ProjectDetail) (fs : FS),
    (∀ proj ∈ projects, fsExists fs (targetPath root proj) = true →
        fsRead (ensureDetailPagesExist root projects details fs).fs
            (targetPath root proj) = fsRead fs (targetPath root proj)
          ∧ targetPath root proj
              ∉ (ensureDetailPagesExist root projects details fs).writes)
      ∧ (∀ proj ∈ projects, ¬ proj.detailPage = [] →
          fsExists (ensureDetailPagesExist root projects details fs).fs
            (targetPath root proj) = true)
      ∧ (ensureDetailPagesExist root projects
          (ensureDetailPagesExist root projects details fs).details
          (ensureDetailPagesExist root projects details fs).fs).writes
          = [] := by
  intro root projects details fs
  refine ⟨?_, ?_, ?_⟩
  · intro proj _ hex
    obtain ⟨h1, _, h3⟩ := ensure_fold_preserves root (targetPath root proj)
      projects ⟨fs, details, []⟩ hex (List.not_mem_nil _)
    exact ⟨h1, h3⟩
  · intro proj hmem hpage
    exact ensure_fold_targets_exist root projects ⟨fs, details, []⟩ proj
      hmem hpage
  · have hskip : projects.foldl (ensureStep root)
        ⟨(ensureDetailPagesExist root projects details fs).fs,
         (ensureDetailPagesExist root projects details fs).details, []⟩
        = ⟨(ensureDetailPagesExist root projects details fs).fs,
           (ensureDetailPagesExist root projects details fs).details, []⟩ := by
      apply ensure_fold_skip
      intro proj hmem
      by_cases hpage : proj.detailPage = []
      · exact Or.inl hpage
      · exact Or.inr (ensure_fold_targets_exist root projects
          ⟨fs, details, []⟩ proj hmem hpage)
    show (projects.foldl (ensureStep root) _).writes = []
    rw [hskip]

/-- A project used by the C3 witness, with an existing target file. -/
def presentProject : Project :=
  ⟨2, str "T2", str "d2", str "i2.jpg", [], false, str "./project-2.html"⟩

/-- A filesystem already holding the target of `presentProject`. -/
def presentFs : FS :=
  [([str "home", str "site", str "project-2.html"], str "keep")]

/-- Witness for C3 at concrete inputs: the existing page's binding
survives, it is never written, and the second call writes nothing. -/
theorem c3_witness :
    fsRead (ensureDetailPagesExist siteRoot [presentProject] [] presentFs).fs
        (targetPath siteRoot presentProject)
        = fsRead presentFs (targetPath siteRoot presentProject)
      ∧ targetPath siteRoot presentProject
          ∉ (ensureDetailPagesExist siteRoot [presentProject] [] presentFs).writes
      ∧ (ensureDetailPagesExist siteRoot [presentProject]
          (ensureDetailPagesExist siteRoot [presentProject] [] presentFs).details
          (ensureDetailPagesExist siteRoot [presentProject] [] presentFs).fs).writes
          = [] := by
  have h := c3_ensure_idempotent siteRoot [presentProject] [] presentFs
  obtain ⟨h1, h2⟩ := h.1 presentProject (List.mem_singleton.mpr rfl) (by decide)
  exact ⟨h1, h2, h.2.2⟩
